import Mathlib

/-
Verification development for the cv374 repository.

Shallow embedding of:
  - src/win32.py  (Win32Handler.read_bin_data): the WIN32 container decoder;
  - src/t3w.py    (T3WHandler._read_t3w_header, _read_t3w_file): fixed header parsing;
  - src/log.py    (LogHandler._read_log_data_raw, _process_log_data): NMEA tracklog parsing;
  - src/format.py (DataFormatter._match_files, _marge_log_files): grouping and fix matching.

Bytes are modelled as lists of naturals; the io.BytesIO cursor is an explicit
Reader; struct.unpack failures, the strptime ValueError, IndexError,
ZeroDivisionError, the numpy ragged-array ValueError and the unbound-local
error for unknown sample sizes become constructors of DecErr.  Python ints are
Int (unbounded, as in CPython); the final astype(int32) wrap is toInt32.
Floats are modelled as rationals; a pandas NaN produced by an empty min or an
empty mean is modelled as Option.none.
-/

/-- A byte stream: each element is one byte value (0..255 for real inputs). -/
abbrev Bytes := List Nat

/-- Big-endian unsigned value of a byte string (int.from_bytes, signed=False). -/
def fromBytesUnsigned (bs : Bytes) : Nat :=
  bs.foldl (fun acc b => acc * 256 + b) 0

/-- Big-endian two=s-complement value of a byte string
    (int.from_bytes, byteorder=big, signed=True; the empty string gives 0). -/
def fromBytesSigned (bs : Bytes) : Int :=
  let u := fromBytesUnsigned bs
  if 2 * u < 256 ^ bs.length then (u : Int) else (u : Int) - ((256 ^ bs.length : Nat) : Int)

/-- Python pySlice: bs[lo:hi] (lenient at the end of the list). -/
def pySlice (bs : Bytes) (lo hi : Nat) : Bytes :=
  (bs.drop lo).take (hi - lo)

/-- Bitwise AND of a Python int with 0x0F (two=s-complement semantics). -/
def andMask0F (x : Int) : Int := x.emod 16

/-- Bitwise AND of a Python int with 0xF0 (two=s-complement semantics):
    keeps bits 4..7 of the low byte, unshifted. -/
def andMaskF0 (x : Int) : Int := x.emod 256 - x.emod 16

/-- numpy astype(np.int32): wrap an unbounded integer into [-2^31, 2^31). -/
def toInt32 (x : Int) : Int := (x + 2 ^ 31).emod (2 ^ 32) - 2 ^ 31

/-- The io.BytesIO cursor over an in-memory byte string. -/
structure Reader where
  input : Bytes
  pos : Nat
deriving DecidableEq

/-- BytesIO.read(n): returns up to n bytes and advances the cursor. -/
def Reader.read (r : Reader) (n : Nat) : Bytes × Reader :=
  let chunk := (r.input.drop r.pos).take n
  (chunk, ⟨r.input, r.pos + chunk.length⟩)

/-- The Python exceptions the decoding paths can raise. -/
inductive DecErr where
  /-- struct.error: unpack applied to a byte string of the wrong length. -/
  | structError
  /-- ValueError raised for an unparsable frame start datetime. -/
  | invalidDatetime
  /-- IndexError: subscript [0] on an empty bytes object or empty frame list. -/
  | indexError
  /-- ValueError from numpy when per-frame channel arrays are ragged. -/
  | valueError
  /-- ZeroDivisionError from 1 / (frame_length / 1000) with frame_length 0. -/
  | zeroDivision
  /-- UnboundLocalError: temp_inc_bit is never assigned when sample_size > 4. -/
  | unboundLocal
  /-- Loop bound exhausted (unreachable for byte-stream inputs, see parseFrames). -/
  | fuelExhausted
  /-- Any exception from the fixed 1024-byte t3w header parse (kinds collapsed). -/
  | headerError
deriving DecidableEq

/-- struct.unpack of a fixed-size field: the byte count must match exactly. -/
def readExact (rd : Reader) (n : Nat) : Except DecErr (Bytes × Reader) :=
  let p := rd.read n
  if p.1.length = n then .ok p else .error .structError

/-- Read and unpack a big-endian signed integer of n bytes (formats b, h, i). -/
def readSigned (rd : Reader) (n : Nat) : Except DecErr (Int × Reader) :=
  match readExact rd n with
  | .error e => .error e
  | .ok (bs, rd2) => .ok (fromBytesSigned bs, rd2)

/-- Read and unpack a big-endian unsigned integer of n bytes (formats H, I). -/
def readUnsigned (rd : Reader) (n : Nat) : Except DecErr (Nat × Reader) :=
  match readExact rd n with
  | .error e => .error e
  | .ok (bs, rd2) => .ok (fromBytesUnsigned bs, rd2)

/- ## Win32Handler.read_bin_data (src/win32.py lines 54..161) -/

/-- One channel data block of a frame (temp_data_block). -/
structure Block where
  orgId : Int
  netId : Int
  channelId : Int
  sampleSize : Nat
  dataSize : Nat
  data : List Int
deriving DecidableEq

/-- One second block of the payload (temp_second_block). -/
structure Frame where
  startDatetime : Nat
  frameLength : Nat
  channelBlockLength : Nat
  blocks : List Block
deriving DecidableEq

/-- The hex digits of a byte string: two digits per byte (bytes.hex()). -/
def hexDigits (bs : Bytes) : List Nat :=
  bs.foldr (fun b acc => b / 16 :: b % 16 :: acc) []

/-- Value of a decimal digit list read left to right. -/
def digitsToNat (ds : List Nat) : Nat :=
  ds.foldl (fun a d => a * 10 + d) 0

/-- Gregorian leap year, as used by datetime. -/
def isLeapYear (y : Nat) : Bool :=
  (y % 4 = 0 && y % 100 ≠ 0) || y % 400 = 0

/-- Days in a month of the proleptic Gregorian calendar. -/
def daysInMonth (y m : Nat) : Nat :=
  if m = 2 then (if isLeapYear y then 29 else 28)
  else if m = 4 ∨ m = 6 ∨ m = 9 ∨ m = 11 then 30
  else 31

/-- datetime.strptime(bs.hex(), YmdHMSf) on the 8 frame-header bytes: all 16 hex
    digits must be decimal and name a valid calendar datetime (the canonical
    fixed-width reading; strptime accepts the same strings on this domain).
    The result is the 16-digit timestamp value. -/
def parseDatetime (bs : Bytes) : Option Nat :=
  let ds := hexDigits bs
  if ds.all (· < 10) then
    match ds with
    | [y1, y2, y3, y4, mo1, mo2, d1, d2, h1, h2, mi1, mi2, s1, s2, _f1, _f2] =>
      let y := y1 * 1000 + y2 * 100 + y3 * 10 + y4
      let mo := mo1 * 10 + mo2
      let da := d1 * 10 + d2
      let hh := h1 * 10 + h2
      let mi := mi1 * 10 + mi2
      let ss := s1 * 10 + s2
      if 1 ≤ y ∧ 1 ≤ mo ∧ mo ≤ 12 ∧ 1 ≤ da ∧ da ≤ daysInMonth y mo ∧
         hh ≤ 23 ∧ mi ≤ 59 ∧ ss ≤ 59 then
        some (digitsToNat ds)
      else none
    | _ => none
  else none

/-- The delta loop of one channel block (win32.py lines 101..128).
    State: remaining iterations, running sample value, accumulated samples
    (reversed), the 4-bit phase flag and the last byte read for size-0 data.
    Sizes 1..4 read that many bytes leniently (a short or empty read is NOT an
    error: int.from_bytes accepts it); any size above 4 leaves temp_inc_bit
    unassigned and raises UnboundLocalError. -/
def parseDeltas (sz : Nat) : Nat → Int → List Int → Bool → Bytes → Reader →
    Except DecErr (List Int × Reader)
  | 0, _val, acc, _flag, _lb, rd => .ok (acc.reverse, rd)
  | n + 1, val, acc, flag, lb, rd =>
    if sz = 0 then
      if flag then
        let inc := andMaskF0 (fromBytesSigned lb)
        parseDeltas sz n (val + inc) ((val + inc) :: acc) false lb rd
      else
        let p := rd.read 1
        let inc := andMask0F (fromBytesSigned p.1)
        parseDeltas sz n (val + inc) ((val + inc) :: acc) true p.1 p.2
    else if sz ≤ 4 then
      let p := rd.read sz
      let inc := fromBytesSigned p.1
      parseDeltas sz n (val + inc) ((val + inc) :: acc) flag lb p.2
    else .error .unboundLocal

/-- One channel block (win32.py lines 87..130): org id, net id, channel id,
    the 2-byte field holding the sample-size code (high nibble) and the 12-bit
    sample count, the initial absolute sample, then the delta stream. -/
def parseBlock (rd : Reader) : Except DecErr (Block × Reader) :=
  match readSigned rd 1 with
  | .error e => .error e
  | .ok (org, rd1) =>
    match readSigned rd1 1 with
    | .error e => .error e
    | .ok (net, rd2) =>
      match readSigned rd2 2 with
      | .error e => .error e
      | .ok (chan, rd3) =>
        let p := rd3.read 2
        match p.1 with
        | [] => .error .indexError
        | b0 :: bRest =>
          let sz := b0 / 16
          if bRest.length = 1 then
            let count := fromBytesUnsigned p.1 % 4096
            match readSigned p.2 4 with
            | .error e => .error e
            | .ok (init, rd5) =>
              match parseDeltas sz (count - 1) init [init] false [] rd5 with
              | .error e => .error e
              | .ok (samples, rd6) =>
                .ok (⟨org, net, chan, sz, count, samples⟩, rd6)
          else .error .structError

/-- The fixed number of channel blocks of one frame (num_channel is a
    constructor parameter, not read from the frame). -/
def parseBlocks : Nat → Reader → Except DecErr (List Block × Reader)
  | 0, rd => .ok ([], rd)
  | n + 1, rd =>
    match parseBlock rd with
    | .error e => .error e
    | .ok (b, rd2) =>
      match parseBlocks n rd2 with
      | .error e => .error e
      | .ok (bs, rd3) => .ok (b :: bs, rd3)

/-- The while-True frame loop (win32.py lines 65..134).  A read of fewer than
    8 bytes for the start datetime raises struct.error, which is caught and
    breaks the loop; every other failure propagates.  The fuel argument only
    bounds the recursion; readBinData passes more fuel than the input can
    consume, so the fuelExhausted branch is unreachable on byte streams. -/
def parseFrames (nch : Nat) : Nat → Reader → List Frame → Except DecErr (List Frame)
  | 0, _, _ => .error .fuelExhausted
  | fuel + 1, rd, acc =>
    let p := rd.read 8
    if p.1.length ≠ 8 then .ok acc
    else
      match parseDatetime p.1 with
      | none => .error .invalidDatetime
      | some ts =>
        match readUnsigned p.2 4 with
        | .error e => .error e
        | .ok (flen, rd2) =>
          match readUnsigned rd2 4 with
          | .error e => .error e
          | .ok (cblen, rd3) =>
            match parseBlocks nch rd3 with
            | .error e => .error e
            | .ok (blocks, rd4) =>
              parseFrames nch fuel rd4 (acc ++ [⟨ts, flen, cblen, blocks⟩])

/-- One obspy Trace as far as the claims observe it (the sampling-rate float,
    a function of the first frame length only, is not modelled; its
    ZeroDivisionError for frame_length 0 is). -/
structure TraceR where
  data : List Int
  starttime : Nat
deriving DecidableEq

/-- The decoded result: the header dict and the obspy Stream. -/
structure DecResult where
  magic : Bytes
  headerStart : Nat
  headerEnd : Nat
  traces : List TraceR
deriving DecidableEq

/-- temp_data[j]["data"][i]["data"]: the sample list of channel i of a frame. -/
def channelSamples (fr : Frame) (i : Nat) : List Int :=
  (fr.blocks.map Block.data).getD i []

/-- Whether np.array would be handed ragged per-frame rows for some channel
    below nch (modern numpy raises ValueError on such input). -/
def hasRagged (nch : Nat) (frames : List Frame) : Bool :=
  (List.range nch).any (fun i =>
    let lens := frames.map (fun fr => (channelSamples fr i).length)
    lens.any (fun l => l ≠ lens.headD 0))

/-- Start timestamp of the first frame (0 when there is none). -/
def frameFirstTs (frames : List Frame) : Nat :=
  (frames.head?.map Frame.startDatetime).getD 0

/-- Start timestamp of the last frame (0 when there is none). -/
def frameLastTs (frames : List Frame) : Nat :=
  (frames.getLast?.map Frame.startDatetime).getD 0

/-- Frame length of the first frame (0 when there is none). -/
def frameHeadLen (frames : List Frame) : Nat :=
  (frames.head?.map Frame.frameLength).getD 0

/-- win32.py lines 136..161: build the obspy Stream and the header dict.
    temp_data[0] on an empty frame list raises IndexError; ragged channel rows
    raise ValueError inside np.array/astype; frame_length 0 raises
    ZeroDivisionError; each trace gets the datetime parsed from the LAST frame
    (the leftover temp_start_datetime_dt), while the header start field is the
    first frame timestamp and the end field the last frame timestamp. -/
def buildResult (nch : Nat) (magic : Bytes) (frames : List Frame) :
    Except DecErr DecResult :=
  match frames with
  | [] => .error .indexError
  | f0 :: rest =>
    if hasRagged nch (f0 :: rest) then .error .valueError
    else if f0.frameLength = 0 then .error .zeroDivision
    else .ok
      { magic := magic
        headerStart := f0.startDatetime
        headerEnd := frameLastTs (f0 :: rest)
        traces := (List.range nch).map (fun i =>
          { data := ((f0 :: rest).map (fun fr => channelSamples fr i)).flatten.map toInt32
            starttime := frameLastTs (f0 :: rest) }) }

/-- The frame stream of a payload: skip the 4-byte magic field, then loop. -/
def win32Frames (nch : Nat) (input : Bytes) : Except DecErr (List Frame) :=
  let p := Reader.read ⟨input, 0⟩ 4
  parseFrames nch (input.length + 1) p.2 []

/-- Win32Handler.read_bin_data: whole-payload decode. -/
def readBinData (nch : Nat) (input : Bytes) : Except DecErr DecResult :=
  match win32Frames nch input with
  | .error e => .error e
  | .ok frames => buildResult nch (Reader.read ⟨input, 0⟩ 4).1 frames

/-- Whether an Except value is a normal return. -/
def isOkE {α : Type} : Except DecErr α → Bool
  | .ok _ => true
  | .error _ => false

/-- The per-channel sample arrays of a decode result, when it succeeded. -/
def decTraces : Except DecErr DecResult → Option (List (List Int))
  | .ok r => some (r.traces.map TraceR.data)
  | .error _ => none

/-- The absolute sample list of a parsed channel block, when it succeeded. -/
def blockSamples : Except DecErr (Block × Reader) → Option (List Int)
  | .ok (b, _) => some b.data
  | .error _ => none

instance {ε α : Type} [DecidableEq ε] [DecidableEq α] : DecidableEq (Except ε α) := fun x y =>
  match x, y with
  | .ok a, .ok b =>
    if h : a = b then .isTrue (by rw [h])
    else .isFalse (fun hc => h (by cases hc; rfl))
  | .error a, .error b =>
    if h : a = b then .isTrue (by rw [h])
    else .isFalse (fun hc => h (by cases hc; rfl))
  | .ok _, .error _ => .isFalse (fun hc => Except.noConfusion hc)
  | .error _, .ok _ => .isFalse (fun hc => Except.noConfusion hc)

/- ## T3WHandler (src/t3w.py lines 86..137) -/

/-- Whether a byte list is a valid UTF-8 encoding (bytes.decode would accept
    it): 1..4-byte sequences with continuation, overlong and surrogate checks,
    as CPython enforces. -/
def validUtf8 : Bytes → Bool
  | [] => true
  | b :: rest =>
    if b < 128 then validUtf8 rest
    else if 194 ≤ b ∧ b ≤ 223 then
      match rest with
      | c1 :: rest2 => (128 ≤ c1 && c1 ≤ 191) && validUtf8 rest2
      | _ => false
    else if 224 ≤ b ∧ b ≤ 239 then
      match rest with
      | c1 :: c2 :: rest2 =>
        (if b = 224 then 160 ≤ c1 && c1 ≤ 191
         else if b = 237 then 128 ≤ c1 && c1 ≤ 159
         else 128 ≤ c1 && c1 ≤ 191) &&
        (128 ≤ c2 && c2 ≤ 191) && validUtf8 rest2
      | _ => false
    else if 240 ≤ b ∧ b ≤ 244 then
      match rest with
      | c1 :: c2 :: c3 :: rest2 =>
        (if b = 240 then 144 ≤ c1 && c1 ≤ 191
         else if b = 244 then 128 ≤ c1 && c1 ≤ 143
         else 128 ≤ c1 && c1 ≤ 191) &&
        (128 ≤ c2 && c2 ≤ 191) && (128 ≤ c3 && c3 ≤ 191) && validUtf8 rest2
      | _ => false
    else false

/-- The t3w fixed-header fields the claims observe (_read_t3w_header);
    the zfill-concatenated datetime strings and the device name string are
    pure formatting and are not carried, but every unpack and decode that can
    fail on their byte ranges is still validated by t3wHeaderOk. -/
structure T3wHeader where
  deviceNumber : Nat
  numChannel : Nat
  samplingNumPerChannel : Nat
  samplingTimeInterval : Nat
  delayTime : Nat
  sequenceNumber : Nat
  latitude : ℚ
  longitude : ℚ
  recordingDuration : ℚ
deriving DecidableEq

/-- Every struct.unpack length requirement and utf-8 decode of
    _read_t3w_header, in source order; a False anywhere is the exception the
    dict construction would raise (kinds collapsed into headerError). -/
def t3wHeaderOk (bs : Bytes) : Bool :=
  ((pySlice bs 4 16).length = 12 : Bool) && validUtf8 (pySlice bs 4 16) &&
  ((pySlice bs 24 26).length = 2 : Bool) &&
  ((pySlice bs 30 32).length = 2 : Bool) &&
  ((pySlice bs 32 36).length = 4 : Bool) &&
  ((pySlice bs 40 42).length = 2 : Bool) &&
  ((pySlice bs 42 44).length = 2 : Bool) &&
  ((pySlice bs 50 52).length = 2 : Bool) &&
  ((pySlice bs 52 54).length = 2 : Bool) && ((pySlice bs 54 56).length = 2 : Bool) &&
  ((pySlice bs 56 58).length = 2 : Bool) && ((pySlice bs 58 60).length = 2 : Bool) &&
  ((pySlice bs 60 62).length = 2 : Bool) && ((pySlice bs 62 64).length = 2 : Bool) &&
  ((pySlice bs 64 66).length = 2 : Bool) &&
  ((pySlice bs 66 68).length = 2 : Bool) && ((pySlice bs 68 70).length = 2 : Bool) &&
  ((pySlice bs 70 72).length = 2 : Bool) && ((pySlice bs 72 74).length = 2 : Bool) &&
  ((pySlice bs 74 76).length = 2 : Bool) && ((pySlice bs 76 78).length = 2 : Bool) &&
  ((pySlice bs 78 80).length = 2 : Bool) &&
  ((pySlice bs 224 228).length = 4 : Bool) &&
  ((pySlice bs 228 232).length = 4 : Bool) &&
  ((pySlice bs 232 236).length = 4 : Bool) &&
  ((pySlice bs 808 812).length = 4 : Bool) && ((pySlice bs 812 816).length = 4 : Bool) &&
  ((pySlice bs 816 820).length = 4 : Bool) && ((pySlice bs 820 824).length = 4 : Bool) &&
  ((pySlice bs 828 829).length = 1 : Bool) && validUtf8 (pySlice bs 828 829) &&
  ((pySlice bs 829 830).length = 1 : Bool) && validUtf8 (pySlice bs 829 830)

/-- T3WHandler._read_t3w_header: parse the 1024-byte fixed header.  The
    latitude/longitude are degrees + minutes/60, negated when the hemisphere
    flag byte is the S (83) or W (87) character; recording_duration is
    sampling_num_per_channel * sampling_time_interval / 1000. -/
def readT3wHeader (bs : Bytes) : Except DecErr T3wHeader :=
  if t3wHeaderOk bs then
    let samplingNum := fromBytesUnsigned (pySlice bs 32 36)
    let interval := fromBytesUnsigned (pySlice bs 40 42)
    let lat0 : ℚ := (fromBytesUnsigned (pySlice bs 808 812) : ℚ) +
      (fromBytesUnsigned (pySlice bs 812 816) : ℚ) / 60
    let lon0 : ℚ := (fromBytesUnsigned (pySlice bs 816 820) : ℚ) +
      (fromBytesUnsigned (pySlice bs 820 824) : ℚ) / 60
    let nsFlag := (pySlice bs 828 829).headD 0
    let ewFlag := (pySlice bs 829 830).headD 0
    .ok
      { deviceNumber := fromBytesUnsigned (pySlice bs 24 26)
        numChannel := fromBytesUnsigned (pySlice bs 30 32)
        samplingNumPerChannel := samplingNum
        samplingTimeInterval := interval
        delayTime := fromBytesUnsigned (pySlice bs 42 44)
        sequenceNumber := fromBytesUnsigned (pySlice bs 50 52)
        latitude := lat0 * (if nsFlag = 83 then -1 else 1)
        longitude := lon0 * (if ewFlag = 87 then -1 else 1)
        recordingDuration := (samplingNum : ℚ) * (interval : ℚ) / 1000 }
  else .error .headerError

/-- T3WHandler._read_t3w_file: first 1024 bytes to the header parser, the rest
    to Win32Handler (whose num_channel keeps its default 3). -/
def readT3wFile (bs : Bytes) : Except DecErr (T3wHeader × DecResult) :=
  match readT3wHeader (bs.take 1024) with
  | .error e => .error e
  | .ok h =>
    match readBinData 3 (bs.drop 1024) with
    | .error e => .error e
    | .ok d => .ok (h, d)

/-- The recording_duration of a decoded t3w file, when decoding succeeded. -/
def t3wDurationOf (bs : Bytes) : Option ℚ :=
  match readT3wFile bs with
  | .ok (h, _) => some h.recordingDuration
  | .error _ => none

/-- The declared sample count of the first channel block of the first frame of
    a WIN32 payload, when the frame stream parses. -/
def firstFrameFirstCount (input : Bytes) : Option Nat :=
  match win32Frames 3 input with
  | .ok (f :: _) => (f.blocks.map Block.dataSize).head?
  | _ => none

/- ## LogHandler (src/log.py) -/

/-- One GPGGA sentence after the dropna pass of _read_log_data_raw: every
    required field present, numeric fields already through astype(float).
    latitude/longitude here are still the raw ddmm.mmmmmm values. -/
structure GpggaRow where
  utcTime : ℚ
  latitude : ℚ
  ns : String
  longitude : ℚ
  ew : String
  quality : ℚ
  numSatellites : ℚ
  hdop : ℚ
  altitude : ℚ
  geoidHeight : ℚ
deriving DecidableEq

/-- Python int() applied to a float: truncation toward zero. -/
def pyInt (x : ℚ) : Int := if 0 ≤ x then ⌊x⌋ else ⌈x⌉

/-- Python float modulo (sign follows the divisor; for positive divisor this
    is the floor-based remainder). -/
def pyMod (x y : ℚ) : ℚ := x - y * ⌊x / y⌋

/-- log.py lines 62..63: int(x/100) + (x % 100)/60. -/
def convertCoord (x : ℚ) : ℚ := (pyInt (x / 100) : ℚ) + pyMod x 100 / 60

/-- log.py lines 59..66 applied to the raw rows: convert both coordinates of
    every row, then multiply all latitudes by -1 unless the FIRST row's NS
    flag is N, and all longitudes by -1 unless the FIRST row's EW flag is E
    (the source indexes the flag column at position 0 only).  The Python code
    raises on an empty frame; no claim touches that case. -/
def processCoords : List GpggaRow → List (ℚ × ℚ)
  | [] => []
  | r0 :: rest =>
    let nsMul : ℚ := if r0.ns = "N" then 1 else -1
    let ewMul : ℚ := if r0.ew = "E" then 1 else -1
    (r0 :: rest).map (fun r =>
      (convertCoord r.latitude * nsMul, convertCoord r.longitude * ewMul))

/-- pandas Series.min: none models the NaN of an empty column. -/
def listMin : List ℚ → Option ℚ
  | [] => none
  | x :: xs => some (xs.foldl min x)

/-- pandas Series.mean: none models the NaN mean of an empty column. -/
def meanQ : List ℚ → Option ℚ
  | [] => none
  | l => some (l.sum / l.length)

/-- The stats dict produced by _process_log_data (none models NaN). -/
structure LogStats where
  latitude : Option ℚ
  longitude : Option ℚ
  quality : Option ℚ
  numSatellites : Option ℚ
  hdop : Option ℚ
  altitude : Option ℚ
  geoidHeight : Option ℚ
  startTime : Option ℚ
  endTime : Option ℚ
deriving DecidableEq

/-- log.py line 80: the rows with quality >= 1. -/
def qualityFiltered (rows : List GpggaRow) : List GpggaRow :=
  rows.filter (fun r => decide (1 ≤ r.quality))

/-- LogHandler._process_log_data: filter to quality >= 1, keep the rows whose
    HDOP equals the minimum HDOP of that subset (the comparison with a NaN
    minimum of an empty subset keeps nothing), then take column means; the
    validity window comes from the first and last raw rows. -/
def processLogData (rows : List GpggaRow) : LogStats :=
  let f := qualityFiltered rows
  let f2 : List GpggaRow :=
    match listMin (f.map GpggaRow.hdop) with
    | none => []
    | some m => f.filter (fun r => decide (r.hdop = m))
  { latitude := meanQ (f2.map GpggaRow.latitude)
    longitude := meanQ (f2.map GpggaRow.longitude)
    quality := meanQ (f2.map GpggaRow.quality)
    numSatellites := meanQ (f2.map GpggaRow.numSatellites)
    hdop := meanQ (f2.map GpggaRow.hdop)
    altitude := meanQ (f2.map GpggaRow.altitude)
    geoidHeight := meanQ (f2.map GpggaRow.geoidHeight)
    startTime := (rows.map GpggaRow.utcTime).head?
    endTime := (rows.map GpggaRow.utcTime).getLast? }

/-- The subset the spec says is averaged: quality >= 1 AND HDOP equal to the
    minimum m.  (Spec-side characterization, compared against the code's
    two-stage filter.) -/
def specSelectedRows (rows : List GpggaRow) (m : ℚ) : List GpggaRow :=
  rows.filter (fun r => decide (1 ≤ r.quality) && decide (r.hdop = m))

/- ## DataFormatter (src/format.py) -/

/-- One recording as _match_files sees it: the stem-derived nominal start
    time (seconds), the header recording_duration (seconds), and the
    subdirectory index. -/
structure RecEntry where
  start : ℚ
  duration : ℚ
  subDir : Nat
deriving DecidableEq

/-- format.py lines 326..340 inner step: new group index for one recording
    given the previous recording's stem time and duration. -/
def groupIndicesAux : ℚ → ℚ → Nat → List RecEntry → List Nat
  | _, _, _, [] => []
  | ps, pd, g, r :: rest =>
    let g2 := if r.start - ps - pd ≠ 0 then g + 1 else g
    g2 :: groupIndicesAux r.start r.duration g2 rest

/-- format.py lines 326..340: group assignment over the sorted recording
    list; the first recording gets the initial index 0. -/
def groupIndices : List RecEntry → List Nat
  | [] => []
  | r :: rest => 0 :: groupIndicesAux r.start r.duration 0 rest

/-- One tracklog as _match_files sees it: validity window, subdirectory, and
    the resolved stats fields used by _marge_log_files. -/
structure LogEntry where
  start : ℚ
  endT : ℚ
  subDir : Nat
  latitude : Option ℚ
  longitude : Option ℚ
  altitude : Option ℚ
  geoidHeight : Option ℚ
  numSatellites : Option ℚ
  hdop : Option ℚ
deriving DecidableEq

/-- format.py lines 362..364: the match condition for one log. -/
def logMatches (lg : LogEntry) (rec : RecEntry) : Bool :=
  decide (lg.start ≤ rec.start + rec.duration) &&
  decide (rec.start ≤ lg.endT) &&
  decide (rec.subDir = lg.subDir)

/-- format.py lines 356..367: linear scan over the logs in ascending order;
    the first match wins; -1 is the sentinel left when nothing matches. -/
def matchLogAux (rec : RecEntry) : Nat → List LogEntry → Int
  | _, [] => -1
  | j, lg :: rest => if logMatches lg rec then (j : Int) else matchLogAux rec (j + 1) rest

/-- match_log_index of one recording. -/
def matchLogIndex (logs : List LogEntry) (rec : RecEntry) : Int :=
  matchLogAux rec 0 logs

/-- The catalog fields _marge_log_files touches for one recording: the
    matched-log index and the six location columns (initialized to None by
    _create_file_list_from_scratch). -/
structure CatalogEntry where
  matchLog : Int
  latitude : Option ℚ
  longitude : Option ℚ
  altitude : Option ℚ
  geoidHeight : Option ℚ
  numSatellites : Option ℚ
  hdop : Option ℚ
deriving DecidableEq

/-- format.py lines 447..466 for one recording: an unmatched entry (index -1)
    is skipped and keeps its None location fields; a matched one copies the
    log stats into the (still None) location columns. -/
def mergeEntry (logs : List LogEntry) (rec : RecEntry) : CatalogEntry :=
  let idx := matchLogIndex logs rec
  if idx = -1 then ⟨idx, none, none, none, none, none, none⟩
  else
    match logs.get? idx.toNat with
    | some lg => ⟨idx, lg.latitude, lg.longitude, lg.altitude, lg.geoidHeight,
                  lg.numSatellites, lg.hdop⟩
    | none => ⟨idx, none, none, none, none, none, none⟩

/- ## Helper lemmas -/

theorem read_fst_length (rd : Reader) (n : Nat) :
    (rd.read n).1.length = min n (rd.input.length - rd.pos) := by
  simp [Reader.read]

/-- The frame loop returns the accumulated frames as soon as fewer than 8
    bytes remain (the struct.error of the 8-byte read is caught as break). -/
theorem parseFrames_eof (nch fuel : Nat) (rd : Reader) (acc : List Frame)
    (hfuel : 0 < fuel) (hrem : rd.input.length ≤ rd.pos + 7) :
    parseFrames nch fuel rd acc = .ok acc := by
  cases fuel with
  | zero => omega
  | succ k =>
    have hlen : (rd.read 8).1.length ≠ 8 := by
      rw [read_fst_length]; omega
    simp [parseFrames, hlen]

/-- The sample-stream length of a delta-loop result, when it succeeded. -/
def deltasLength : Except DecErr (List Int × Reader) → Option Nat
  | .ok (s, _) => some s.length
  | .error _ => none

/- ## Claim C1 -/

/-- The two delta bytes of the claimed nibble example for sample-size code 0,
    inside a minimal channel block: org 0, net 0, channel 0, size field
    0x0005 (code 0, count 5), initial sample 0, delta bytes 0x12 0x34. -/
def c1BlockBytes : Bytes := [0, 0, 0, 0, 0, 5, 0, 0, 0, 0, 18, 52]

/-- Claim C1 (code evaluation): on the delta bytes [0x12, 0x34] with initial
    sample 0 and declared count 5, the decoder emits the deltas
    [2, 16, 4, 48] - the LOW nibble of each byte first, unsigned, then the
    high nibble multiplied by 16, unsigned - so the absolute samples are
    [0, 2, 18, 22, 70] and not the [0, 1, 3, 6, 10] the claim requires. -/
theorem w32_c1_code_behavior :
    blockSamples (parseBlock (Reader.mk c1BlockBytes 0)) = some [0, 2, 18, 22, 70] ∧
    ([0, 2, 18, 22, 70] : List Int) ≠ [0, 1, 3, 6, 10] := by
  decide

/- ## Claim C2 -/

/-- A one-channel payload whose single channel block declares sample-size
    code 1 and count 3 but whose last delta byte is cut off. -/
def c2Input : Bytes :=
  [0, 0, 0, 0] ++ [32, 36, 1, 2, 3, 4, 5, 6] ++ [0, 0, 3, 232] ++ [0, 0, 0, 10] ++
  [0, 0, 0, 0] ++ [16, 3] ++ [0, 0, 0, 5] ++ [1]

/-- Claim C2 counterexample: the payload cut off one byte before the end of
    its channel block's delta stream decodes SUCCESSFULLY; the missing final
    delta is read as the empty string (value 0), so the channel array is
    full-length but silently wrong ([5, 6, 6] instead of the intended
    [5, 6, 7]); no Truncated error exists on this path. -/
theorem w32_c2_counterexample :
    isOkE (readBinData 1 c2Input) = true ∧
    decTraces (readBinData 1 c2Input) = some [[5, 6, 6]] ∧
    ([[5, 6, 6]] : List (List Int)) ≠ [[5, 6, 7]] := by
  decide

/-- Claim C2 amended: for every sample-size code 0..4 the delta loop can never
    fail, whatever bytes remain in the stream - a truncated stream is read
    leniently (short or empty reads still produce a delta) - and it always
    returns exactly the declared number of samples. -/
theorem w32_c2_amended (sz n : Nat) (val : Int) (acc : List Int) (flag : Bool)
    (lb : Bytes) (rd : Reader) (hsz : sz ≤ 4) :
    isOkE (parseDeltas sz n val acc flag lb rd) = true ∧
    deltasLength (parseDeltas sz n val acc flag lb rd) = some (acc.length + n) := by
  induction n generalizing val acc flag lb rd with
  | zero =>
    constructor
    · rfl
    · simp [parseDeltas, deltasLength]
  | succ k ih =>
    by_cases h0 : sz = 0
    · subst h0
      cases flag
      · have := ih (val + andMask0F (fromBytesSigned (rd.read 1).1))
          ((val + andMask0F (fromBytesSigned (rd.read 1).1)) :: acc) true
          (rd.read 1).1 (rd.read 1).2
        simpa [parseDeltas, Nat.add_comm, Nat.add_assoc, Nat.add_left_comm] using this
      · have := ih (val + andMaskF0 (fromBytesSigned lb))
          ((val + andMaskF0 (fromBytesSigned lb)) :: acc) false lb rd
        simpa [parseDeltas, Nat.add_comm, Nat.add_assoc, Nat.add_left_comm] using this
    · have := ih (val + fromBytesSigned (rd.read sz).1)
        ((val + fromBytesSigned (rd.read sz).1) :: acc) flag lb (rd.read sz).2
      simpa [parseDeltas, h0, hsz, Nat.add_comm, Nat.add_assoc, Nat.add_left_comm] using this

/-- Witness for C2 amended: code 1, count 3, initial sample 5, one remaining
    delta byte: the loop still returns 3 samples. -/
theorem w32_c2_witness :
    isOkE (parseDeltas 1 2 5 [5] false [] (Reader.mk [1] 0)) = true ∧
    deltasLength (parseDeltas 1 2 5 [5] false [] (Reader.mk [1] 0)) =
      some (([5] : List Int).length + 2) :=
  w32_c2_amended 1 2 5 [5] false [] (Reader.mk [1] 0) (by decide)

/- ## Claim C9 -/

/-- Claim C9 counterexample: a payload holding only the 4-byte magic field
    (zero frames) does NOT decode successfully - building the output stream
    subscripts the empty frame list (temp_data[0]) and raises IndexError. -/
theorem w32_c9_counterexample :
    readBinData 3 [0, 0, 0, 0] = .error .indexError := by
  decide

/-- Claim C9 amended: hitting end-of-input at (or anywhere within 7 bytes of)
    a frame-header boundary ends the frame loop as a normal end-of-stream with
    the frames read so far, and the whole decode succeeds provided at least
    ONE full frame was read (and the built output does not fail for the
    independent reasons modelled: ragged channel rows or frame length 0);
    with zero frames the decode raises instead. -/
theorem w32_c9_amended :
    (∀ (nch fuel : Nat) (rd : Reader) (acc : List Frame),
      0 < fuel → rd.input.length ≤ rd.pos + 7 →
      parseFrames nch fuel rd acc = .ok acc) ∧
    (∀ (nch : Nat) (input : Bytes) (frames : List Frame),
      win32Frames nch input = .ok frames → frames ≠ [] →
      hasRagged nch frames = false → frameHeadLen frames ≠ 0 →
      isOkE (readBinData nch input) = true) := by
  constructor
  · exact parseFrames_eof
  · intro nch input frames hf hne hrag hlen
    unfold readBinData
    rw [hf]
    cases frames with
    | nil => exact absurd rfl hne
    | cons f0 rest =>
      have hl0 : f0.frameLength ≠ 0 := by
        simpa [frameHeadLen] using hlen
      simp [buildResult, hrag, hl0, isOkE]

/-- Witness for C9 amended, first part: after the magic field of a magic-only
    payload the loop stops at once with zero frames and no error. -/
theorem w32_c9_witness :
    parseFrames 1 1 (Reader.mk [0, 0, 0, 0] 4) [] = .ok [] :=
  w32_c9_amended.1 1 1 (Reader.mk [0, 0, 0, 0] 4) [] (by decide) (by decide)

/- ## Claim C10 -/

/-- Claim C10: whenever a payload decodes successfully, every returned trace
    carries the SAME start time, namely the start timestamp of the LAST frame
    (the leftover strptime result), while the returned header start field is
    the first frame's timestamp and the end field the last frame's. -/
theorem w32_c10_trace_start (nch : Nat) (input : Bytes) (frames : List Frame)
    (r : DecResult)
    (hf : win32Frames nch input = .ok frames)
    (hr : readBinData nch input = .ok r) :
    (∀ t ∈ r.traces, t.starttime = frameLastTs frames) ∧
    r.headerStart = frameFirstTs frames ∧
    r.headerEnd = frameLastTs frames := by
  unfold readBinData at hr
  rw [hf] at hr
  have hb : buildResult nch (Reader.read ⟨input, 0⟩ 4).1 frames = .ok r := hr
  clear hr
  cases frames with
  | nil => simp [buildResult] at hb
  | cons f0 rest =>
    rw [show buildResult nch (Reader.read ⟨input, 0⟩ 4).1 (f0 :: rest) =
      (if hasRagged nch (f0 :: rest) then .error .valueError
       else if f0.frameLength = 0 then .error .zeroDivision
       else .ok
        { magic := (Reader.read ⟨input, 0⟩ 4).1
          headerStart := f0.startDatetime
          headerEnd := frameLastTs (f0 :: rest)
          traces := (List.range nch).map (fun i =>
            { data := ((f0 :: rest).map (fun fr => channelSamples fr i)).flatten.map toInt32
              starttime := frameLastTs (f0 :: rest) }) }) from rfl] at hb
    by_cases hrag : hasRagged nch (f0 :: rest)
    · simp [hrag] at hb
    · by_cases hl0 : f0.frameLength = 0
      · simp [hrag, hl0] at hb
      · simp only [hrag, hl0, if_false, Bool.false_eq_true, ite_false] at hb
        rw [Except.ok.injEq] at hb
        subst hb
        refine ⟨?_, ?_, ?_⟩
        · intro t ht
          simp only [List.mem_map] at ht
          obtain ⟨i, _, hti⟩ := ht
          rw [← hti]
        · simp [frameFirstTs]
        · rfl

/-- A two-frame, one-channel payload used to witness C10. -/
def c10Input : Bytes :=
  [0, 0, 0, 0] ++
  [32, 36, 1, 2, 3, 4, 5, 6] ++ [0, 0, 3, 232] ++ [0, 0, 0, 10] ++
  [0, 0, 0, 0] ++ [16, 1] ++ [0, 0, 0, 5] ++
  [32, 36, 1, 2, 3, 4, 5, 7] ++ [0, 0, 3, 232] ++ [0, 0, 0, 10] ++
  [0, 0, 0, 0] ++ [16, 1] ++ [0, 0, 0, 7]

/-- The frames of c10Input. -/
def c10Frames : List Frame :=
  [⟨2024010203040506, 1000, 10, [⟨0, 0, 0, 1, 1, [5]⟩]⟩,
   ⟨2024010203040507, 1000, 10, [⟨0, 0, 0, 1, 1, [7]⟩]⟩]

/-- The decode result of c10Input. -/
def c10Res : DecResult :=
  { magic := [0, 0, 0, 0]
    headerStart := 2024010203040506
    headerEnd := 2024010203040507
    traces := [⟨[5, 7], 2024010203040507⟩] }

/-- Witness for C10 at the two-frame payload. -/
theorem w32_c10_witness : c10Res.headerStart = frameFirstTs c10Frames :=
  (w32_c10_trace_start 1 c10Input c10Frames c10Res (by decide) (by decide)).2.1

/- ## Claim C5 -/

/-- Head of the group loop output: the first remaining recording gets the
    previous index incremented exactly when its start is discontinuous. -/
theorem groupIndicesAux_head (ps pd : ℚ) (g : Nat) (x : RecEntry)
    (xs : List RecEntry) :
    (groupIndicesAux ps pd g (x :: xs)).get? 0 =
      some (if x.start - ps - pd ≠ 0 then g + 1 else g) := by
  simp [groupIndicesAux]

/-- Step relation of the group loop: consecutive output indices differ by the
    discontinuity test between the corresponding consecutive recordings. -/
theorem groupIndicesAux_step (rest : List RecEntry) :
    ∀ (ps pd : ℚ) (g i : Nat) (ri ri1 : RecEntry) (gi gi1 : Nat),
    rest.get? i = some ri → rest.get? (i + 1) = some ri1 →
    (groupIndicesAux ps pd g rest).get? i = some gi →
    (groupIndicesAux ps pd g rest).get? (i + 1) = some gi1 →
    gi1 = if ri1.start - ri.start - ri.duration ≠ 0 then gi + 1 else gi := by
  induction rest with
  | nil => intro ps pd g i ri ri1 gi gi1 h; simp at h
  | cons x xs ih =>
    intro ps pd g i ri ri1 gi gi1 h1 h2 h3 h4
    cases i with
    | zero =>
      simp only [List.get?_cons_zero, Option.some.injEq] at h1
      subst h1
      rw [groupIndicesAux_head] at h3
      simp only [Option.some.injEq] at h3
      subst h3
      simp only [List.get?_cons_succ] at h2
      cases xs with
      | nil => simp at h2
      | cons y ys =>
        simp only [List.get?_cons_zero, Option.some.injEq] at h2
        subst h2
        simp only [groupIndicesAux, List.get?_cons_succ] at h4
        simp only [List.get?_cons_zero, Option.some.injEq] at h4
        exact h4.symm
    | succ j =>
      simp only [List.get?_cons_succ] at h1 h2
      simp only [groupIndicesAux, List.get?_cons_succ] at h3 h4
      exact ih x.start x.duration _ j ri ri1 gi gi1 h1 h2 h3 h4

/-- Claim C5: over the sorted recording list the grouper gives the first
    recording group index 0; for every later recording (here with the claim's
    same-subdirectory proviso) the index grows by exactly one iff its stem
    start time differs from the previous stem start plus the previous
    duration, with exact equality and no tolerance; and three recordings of
    duration 300 s starting at T, T+300, T+700 get groups [0, 0, 1]. -/
theorem fmt_c5_grouping :
    (∀ (r0 : RecEntry) (rest : List RecEntry),
      (groupIndices (r0 :: rest)).get? 0 = some 0) ∧
    (∀ (rs : List RecEntry) (i : Nat) (ri ri1 : RecEntry) (gi gi1 : Nat),
      rs.get? i = some ri → rs.get? (i + 1) = some ri1 →
      (groupIndices rs).get? i = some gi →
      (groupIndices rs).get? (i + 1) = some gi1 →
      ri.subDir = ri1.subDir →
      gi1 = if ri1.start ≠ ri.start + ri.duration then gi + 1 else gi) ∧
    (∀ T : ℚ,
      groupIndices [⟨T, 300, 0⟩, ⟨T + 300, 300, 0⟩, ⟨T + 700, 300, 0⟩] =
        [0, 0, 1]) := by
  refine ⟨?_, ?_, ?_⟩
  · intro r0 rest
    simp [groupIndices]
  · intro rs i ri ri1 gi gi1 h1 h2 h3 h4 _
    cases rs with
    | nil => simp at h1
    | cons r rest =>
      cases i with
      | zero =>
        simp only [List.get?_cons_zero, Option.some.injEq] at h1
        subst h1
        simp only [groupIndices, List.get?_cons_zero, Option.some.injEq] at h3
        subst h3
        simp only [List.get?_cons_succ] at h2
        simp only [groupIndices, List.get?_cons_succ] at h4
        cases rest with
        | nil => simp at h2
        | cons y ys =>
          simp only [List.get?_cons_zero, Option.some.injEq] at h2
          subst h2
          rw [groupIndicesAux_head] at h4
          simp only [Option.some.injEq] at h4
          simp only [sub_sub, sub_ne_zero] at h4
          exact h4.symm
      | succ j =>
        simp only [List.get?_cons_succ] at h1 h2
        simp only [groupIndices, List.get?_cons_succ] at h3 h4
        have hstep := groupIndicesAux_step rest r.start r.duration 0 j ri ri1 gi gi1 h1 h2 h3 h4
        simp only [sub_sub, sub_ne_zero] at hstep
        exact hstep
  · intro T
    have e1 : T + 300 - T - (300 : ℚ) = 0 := by ring
    have e2 : T + 700 - (T + 300) - (300 : ℚ) = 100 := by ring
    simp only [groupIndices, groupIndicesAux, e1, e2]
    norm_num

/-- Witness for C5: the claim's continuity example at T = 0. -/
theorem fmt_c5_witness :
    groupIndices [⟨0, 300, 0⟩, ⟨(0 : ℚ) + 300, 300, 0⟩, ⟨(0 : ℚ) + 700, 300, 0⟩] =
      [0, 0, 1] :=
  fmt_c5_grouping.2.2 0

/- ## Claim C6 -/

/-- The linear scan either returns the offset position of a first matching
    log, or -1 with no log matching at all. -/
theorem matchLogAux_spec (logs : List LogEntry) (rec : RecEntry) :
    ∀ j : Nat,
    (∃ k, matchLogAux rec j logs = ((j + k : Nat) : Int) ∧
      ∃ lg, logs.get? k = some lg ∧ logMatches lg rec = true ∧
        ∀ k2, k2 < k → ∀ lg2, logs.get? k2 = some lg2 → logMatches lg2 rec = false) ∨
    (matchLogAux rec j logs = -1 ∧
      ∀ k lg, logs.get? k = some lg → logMatches lg rec = false) := by
  induction logs with
  | nil =>
    intro j
    right
    constructor
    · rfl
    · intro k lg h; simp at h
  | cons lg0 rest ih =>
    intro j
    by_cases hm : logMatches lg0 rec = true
    · left
      refine ⟨0, ?_, lg0, rfl, hm, ?_⟩
      · simp [matchLogAux, hm]
      · intro k2 hk2; omega
    · rcases ih (j + 1) with ⟨k, hk, lg, hget, hmat, hmin⟩ | ⟨hnone, hall⟩
      · left
        refine ⟨k + 1, ?_, lg, ?_, hmat, ?_⟩
        · simp only [matchLogAux, hm, if_false, Bool.false_eq_true, ite_false]
          rw [hk]
          congr 1
          omega
        · simpa using hget
        · intro k2 hk2 lg2 hget2
          cases k2 with
          | zero =>
            simp only [List.get?_cons_zero, Option.some.injEq] at hget2
            subst hget2
            simpa using hm
          | succ k3 =>
            simp only [List.get?_cons_succ] at hget2
            exact hmin k3 (by omega) lg2 hget2
      · right
        constructor
        · simp only [matchLogAux, hm, if_false, Bool.false_eq_true, ite_false]
          exact hnone
        · intro k lg2 hget2
          cases k with
          | zero =>
            simp only [List.get?_cons_zero, Option.some.injEq] at hget2
            subst hget2
            simpa using hm
          | succ k3 =>
            simp only [List.get?_cons_succ] at hget2
            exact hall k3 lg2 hget2

/-- Claim C6: the fix matcher picks the first log, in ascending log order,
    satisfying log.start <= rec.end AND rec.start <= log.end AND equal
    subdirectory; both bounds are inclusive (a recording starting exactly at
    the upper validity bound matches; one time unit past it does not); a
    recording with no matching log keeps the -1 sentinel and its location
    columns stay None -- never zero. -/
theorem fmt_c6_matching :
    (∀ (logs : List LogEntry) (rec : RecEntry) (k : Nat),
      matchLogIndex logs rec = (k : Int) →
      ∃ lg, logs.get? k = some lg ∧ logMatches lg rec = true ∧
        ∀ k2, k2 < k → ∀ lg2, logs.get? k2 = some lg2 → logMatches lg2 rec = false) ∧
    (∀ (logs : List LogEntry) (rec : RecEntry),
      matchLogIndex logs rec = -1 →
      ∀ k lg, logs.get? k = some lg → logMatches lg rec = false) ∧
    (∀ (lg : LogEntry) (rec : RecEntry),
      rec.start = lg.endT → lg.start ≤ rec.start + rec.duration →
      rec.subDir = lg.subDir → matchLogIndex [lg] rec = 0) ∧
    (∀ (lg : LogEntry) (rec : RecEntry),
      rec.start = lg.endT + 1 → matchLogIndex [lg] rec = -1) ∧
    (∀ (logs : List LogEntry) (rec : RecEntry),
      matchLogIndex logs rec = -1 →
      mergeEntry logs rec = ⟨-1, none, none, none, none, none, none⟩) := by
  refine ⟨?_, ?_, ?_, ?_, ?_⟩
  · intro logs rec k hk
    rcases matchLogAux_spec logs rec 0 with ⟨k2, hk2, lg, hget, hmat, hmin⟩ | ⟨hnone, _⟩
    · have : k = k2 := by
        rw [matchLogIndex] at hk
        rw [hk] at hk2
        omega
      subst this
      exact ⟨lg, hget, hmat, hmin⟩
    · rw [matchLogIndex] at hk
      rw [hk] at hnone
      omega
  · intro logs rec hk
    rcases matchLogAux_spec logs rec 0 with ⟨k2, hk2, _, _, _, _⟩ | ⟨_, hall⟩
    · rw [matchLogIndex] at hk
      rw [hk] at hk2
      omega
    · exact hall
  · intro lg rec h1 h2 h3
    have hm : logMatches lg rec = true := by
      simp [logMatches, h2, h3, le_of_eq h1]
    simp [matchLogIndex, matchLogAux, hm]
  · intro lg rec h1
    have hm : logMatches lg rec = false := by
      have : ¬ rec.start ≤ lg.endT := by
        rw [h1]
        intro hc
        linarith
      simp [logMatches, this]
    simp [matchLogIndex, matchLogAux, hm]
  · intro logs rec hk
    simp [mergeEntry, matchLogIndex] at hk ⊢
    simp [hk]

/-- Witness for C6: a recording starting exactly at the upper validity bound
    of the only log is matched. -/
theorem fmt_c6_witness :
    matchLogIndex [⟨0, 10, 0, none, none, none, none, none, none⟩] ⟨10, 5, 0⟩ = 0 :=
  fmt_c6_matching.2.2.1 ⟨0, 10, 0, none, none, none, none, none, none⟩ ⟨10, 5, 0⟩
    rfl (by norm_num) rfl

/- ## Claims C3, C4: helper lemmas -/

theorem foldl_min_mem (xs : List ℚ) : ∀ a : ℚ, xs.foldl min a = a ∨ xs.foldl min a ∈ xs := by
  induction xs with
  | nil => intro a; left; rfl
  | cons x rest ih =>
    intro a
    rcases ih (min a x) with h | h
    · rcases min_cases a x with ⟨he, _⟩ | ⟨he, _⟩
      · left
        rw [List.foldl_cons, h, he]
      · right
        rw [List.foldl_cons, h, he]
        exact List.mem_cons_self x rest
    · right
      rw [List.foldl_cons]
      exact List.mem_cons_of_mem x h

theorem foldl_min_le (xs : List ℚ) :
    ∀ a : ℚ, xs.foldl min a ≤ a ∧ ∀ x ∈ xs, xs.foldl min a ≤ x := by
  induction xs with
  | nil => intro a; exact ⟨le_refl a, by intro x hx; simp at hx⟩
  | cons y rest ih =>
    intro a
    obtain ⟨h1, h2⟩ := ih (min a y)
    refine ⟨le_trans h1 (min_le_left a y), ?_⟩
    intro x hx
    rcases List.mem_cons.mp hx with hxy | hxr
    · subst hxy
      exact le_trans h1 (min_le_right a x)
    · exact h2 x hxr

/-- listMin really is the minimum: it is attained and below every element. -/
theorem listMin_spec (l : List ℚ) (m : ℚ) (h : listMin l = some m) :
    m ∈ l ∧ ∀ x ∈ l, m ≤ x := by
  cases l with
  | nil => simp [listMin] at h
  | cons a xs =>
    simp only [listMin, Option.some.injEq] at h
    subst h
    constructor
    · rcases foldl_min_mem xs a with h | h
      · rw [h]; exact List.mem_cons_self a xs
      · exact List.mem_cons_of_mem a h
    · intro x hx
      obtain ⟨h1, h2⟩ := foldl_min_le xs a
      rcases List.mem_cons.mp hx with hxa | hxr
      · subst hxa; exact h1
      · exact h2 x hxr

/-- The mean of a nonempty column. -/
theorem meanQ_of_ne_nil (l : List ℚ) (h : l ≠ []) :
    meanQ l = some (l.sum / l.length) := by
  cases l with
  | nil => exact absurd rfl h
  | cons x xs => rfl

/- ## Claim C3 -/

/-- A quality-0 GPGGA row (all other fields present and nonzero). -/
def c3Row : GpggaRow := ⟨0, 3500, "N", 13500, "E", 0, 5, 2, 100, 40⟩

/-- Claim C3 counterexample: on a tracklog whose only GPGGA sentence has
    quality 0, _process_log_data returns NORMALLY - no NoValidFix error
    exists on this path - with every averaged fix field NaN (here none), and
    in particular not zero. -/
theorem log_c3_counterexample :
    processLogData [c3Row] =
      { latitude := none, longitude := none, quality := none,
        numSatellites := none, hdop := none, altitude := none,
        geoidHeight := none, startTime := some 0, endTime := some 0 } ∧
    (processLogData [c3Row]).latitude ≠ some 0 := by
  decide

/-- Claim C3 amended: whenever no sentence reaches quality 1, the resolved
    fix fields are all NaN (none): absent, never a numeric placeholder, and
    no error is raised (the function is total). -/
theorem log_c3_amended (rows : List GpggaRow) (h : ∀ r ∈ rows, r.quality < 1) :
    (processLogData rows).latitude = none ∧
    (processLogData rows).longitude = none ∧
    (processLogData rows).altitude = none ∧
    (processLogData rows).geoidHeight = none ∧
    (processLogData rows).numSatellites = none ∧
    (processLogData rows).hdop = none := by
  have hq : qualityFiltered rows = [] := by
    rw [qualityFiltered, List.filter_eq_nil_iff]
    intro r hr
    simp only [decide_eq_true_eq]
    exact not_le.mpr (h r hr)
  simp [processLogData, hq, listMin, meanQ]

/-- Witness for C3 amended at the quality-0 row. -/
theorem log_c3_witness :
    (processLogData [c3Row]).latitude = none ∧
    (processLogData [c3Row]).longitude = none ∧
    (processLogData [c3Row]).altitude = none ∧
    (processLogData [c3Row]).geoidHeight = none ∧
    (processLogData [c3Row]).numSatellites = none ∧
    (processLogData [c3Row]).hdop = none :=
  log_c3_amended [c3Row] (by decide)

/- ## Claim C4 -/

/-- Claim C4: when some sentence reaches quality 1, the resolved fix averages
    exactly the rows with quality >= 1 whose HDOP equals the minimum HDOP m
    among the quality >= 1 rows: m is attained and minimal there, and each
    published field is the arithmetic mean of that exact subset. -/
theorem log_c4_mean_selection (rows : List GpggaRow) (m : ℚ)
    (hmin : listMin ((qualityFiltered rows).map GpggaRow.hdop) = some m) :
    (m ∈ (qualityFiltered rows).map GpggaRow.hdop ∧
      ∀ r ∈ qualityFiltered rows, m ≤ r.hdop) ∧
    (processLogData rows).latitude =
      some (((specSelectedRows rows m).map GpggaRow.latitude).sum /
        (specSelectedRows rows m).length) ∧
    (processLogData rows).longitude =
      some (((specSelectedRows rows m).map GpggaRow.longitude).sum /
        (specSelectedRows rows m).length) ∧
    (processLogData rows).altitude =
      some (((specSelectedRows rows m).map GpggaRow.altitude).sum /
        (specSelectedRows rows m).length) ∧
    (processLogData rows).geoidHeight =
      some (((specSelectedRows rows m).map GpggaRow.geoidHeight).sum /
        (specSelectedRows rows m).length) ∧
    (processLogData rows).numSatellites =
      some (((specSelectedRows rows m).map GpggaRow.numSatellites).sum /
        (specSelectedRows rows m).length) ∧
    (processLogData rows).hdop =
      some (((specSelectedRows rows m).map GpggaRow.hdop).sum /
        (specSelectedRows rows m).length) := by
  obtain ⟨hmem, hle⟩ := listMin_spec _ _ hmin
  have hle2 : ∀ r ∈ qualityFiltered rows, m ≤ r.hdop := by
    intro r hr
    exact hle r.hdop (List.mem_map_of_mem GpggaRow.hdop hr)
  refine ⟨⟨hmem, hle2⟩, ?_⟩
  have hsel : (qualityFiltered rows).filter (fun r => decide (r.hdop = m)) =
      specSelectedRows rows m := by
    rw [qualityFiltered, List.filter_filter, specSelectedRows]
    apply List.filter_congr
    intro r _
    rw [Bool.and_comm]
  have hne : specSelectedRows rows m ≠ [] := by
    obtain ⟨r, hrf, hrm⟩ := List.mem_map.mp hmem
    intro hnil
    have : r ∈ specSelectedRows rows m := by
      rw [← hsel]
      rw [List.mem_filter]
      exact ⟨hrf, by simp [hrm]⟩
    rw [hnil] at this
    simp at this
  have hmean : ∀ f : GpggaRow → ℚ,
      meanQ (((qualityFiltered rows).filter (fun r => decide (r.hdop = m))).map f) =
        some (((specSelectedRows rows m).map f).sum / (specSelectedRows rows m).length) := by
    intro f
    rw [hsel]
    rw [meanQ_of_ne_nil _ (by simpa using hne)]
    rw [List.length_map]
  simp only [processLogData, hmin]
  exact ⟨hmean _, hmean _, hmean _, hmean _, hmean _, hmean _⟩

/-- The claim's five-row fix-selection example: HDOP [2.1, 1, 1, 3, 1] and
    quality [1, 1, 1, 0, 1]; latitudes 10, 20, 30, 100, 40. -/
def ex4Rows : List GpggaRow :=
  [⟨0, 10, "N", 10, "E", 1, 5, 21 / 10, 100, 40⟩,
   ⟨1, 20, "N", 20, "E", 1, 5, 1, 100, 40⟩,
   ⟨2, 30, "N", 30, "E", 1, 5, 1, 100, 40⟩,
   ⟨3, 100, "N", 100, "E", 0, 5, 3, 100, 40⟩,
   ⟨4, 40, "N", 40, "E", 1, 5, 1, 100, 40⟩]

/-- Witness for C4 at the claim's example. -/
theorem log_c4_witness :
    (processLogData ex4Rows).latitude =
      some (((specSelectedRows ex4Rows 1).map GpggaRow.latitude).sum /
        (specSelectedRows ex4Rows 1).length) :=
  (log_c4_mean_selection ex4Rows 1 (by
    norm_num [ex4Rows, qualityFiltered, listMin, List.filter])).2.1

/- ## Claim C7 -/

/-- Two sentences with opposite hemisphere flags: the first northern/eastern,
    the second southern/western; both coordinates raw 0100.0 = 1 degree. -/
def c7RowA : GpggaRow := ⟨0, 100, "N", 100, "E", 1, 5, 1, 10, 40⟩

/-- The southern/western sentence of the C7 counterexample. -/
def c7RowB : GpggaRow := ⟨1, 100, "S", 100, "W", 1, 5, 1, 10, 40⟩

/-- Claim C7 counterexample: with sentences [N, S] the decoded latitudes are
    [1, 1] - the second sentence's S flag is ignored because the sign
    multiplier is taken from the FIRST sentence only - where the claim
    requires the second latitude to be -1; same for longitude with [E, W]. -/
theorem log_c7_counterexample :
    (processCoords [c7RowA, c7RowB]).map Prod.fst = [1, 1] ∧
    (processCoords [c7RowA, c7RowB]).map Prod.snd = [1, 1] ∧
    ((1 : ℚ)) ≠ -1 := by
  refine ⟨?_, ?_, by norm_num⟩ <;>
    norm_num [processCoords, convertCoord, pyInt, pyMod, c7RowA, c7RowB]

/-- Claim C7 amended: every sentence's coordinates are converted with
    floor(value/100) + (value - 100*floor(value/100))/60 (for the nonnegative
    raw values of the ddmm.mmmmmm format, where Python int() truncation equals
    floor), but the -1 sign is applied iff the FIRST sentence's NS flag is not
    N (resp. its EW flag is not E), uniformly to every sentence in the file. -/
theorem log_c7_amended (r0 : GpggaRow) (rest : List GpggaRow) (i : Nat)
    (r : GpggaRow) (hget : (r0 :: rest).get? i = some r) :
    (processCoords (r0 :: rest)).get? i =
      some (convertCoord r.latitude * (if r0.ns = "N" then 1 else -1),
            convertCoord r.longitude * (if r0.ew = "E" then 1 else -1)) ∧
    (0 ≤ r.latitude →
      convertCoord r.latitude =
        ((⌊r.latitude / 100⌋ : Int) : ℚ) +
          (r.latitude - 100 * ((⌊r.latitude / 100⌋ : Int) : ℚ)) / 60) ∧
    (0 ≤ r.longitude →
      convertCoord r.longitude =
        ((⌊r.longitude / 100⌋ : Int) : ℚ) +
          (r.longitude - 100 * ((⌊r.longitude / 100⌋ : Int) : ℚ)) / 60) := by
  refine ⟨?_, ?_, ?_⟩
  · rw [processCoords]
    rw [List.get?_map, hget]
    rfl
  · intro hpos
    have hdivpos : (0 : ℚ) ≤ r.latitude / 100 := by positivity
    rw [convertCoord, pyInt, if_pos hdivpos, pyMod]
  · intro hpos
    have hdivpos : (0 : ℚ) ≤ r.longitude / 100 := by positivity
    rw [convertCoord, pyInt, if_pos hdivpos, pyMod]

/-- Witness for C7 amended at the second (southern) sentence of the
    counterexample pair. -/
theorem log_c7_witness :
    (processCoords [c7RowA, c7RowB]).get? 1 =
      some (convertCoord c7RowB.latitude * (if c7RowA.ns = "N" then 1 else -1),
            convertCoord c7RowB.longitude * (if c7RowA.ew = "E" then 1 else -1)) :=
  (log_c7_amended c7RowA [c7RowB] 1 c7RowB (by decide)).1

/- ## Claim C8 -/

/-- A slice below the cut of a take is a slice of the original list. -/
theorem pySlice_take (l : Bytes) (n lo hi : Nat) (h : hi ≤ n) :
    pySlice (l.take n) lo hi = pySlice l lo hi := by
  rw [pySlice, pySlice, List.drop_take, List.take_take, min_eq_left (by omega)]

/-- A slice entirely inside the left part of an append ignores the right. -/
theorem pySlice_append (l1 l2 : Bytes) (lo hi : Nat) (h : hi ≤ l1.length) :
    pySlice (l1 ++ l2) lo hi = pySlice l1 lo hi := by
  by_cases hlo : lo ≤ l1.length
  · rw [pySlice, pySlice, List.drop_append_of_le_length hlo,
      List.take_append_eq_append_take]
    have : hi - lo - (l1.drop lo).length = 0 := by
      rw [List.length_drop]; omega
    rw [this, List.take_zero, List.append_nil]
  · have h2 : hi - lo = 0 := by omega
    rw [pySlice, pySlice, h2, List.take_zero, List.take_zero]

/-- A successful header parse pins recording_duration to the product of the
    two header fields at offsets 32..36 and 40..42. -/
theorem readT3wHeader_duration (bs : Bytes) (h : T3wHeader)
    (hok : readT3wHeader bs = .ok h) :
    t3wHeaderOk bs = true ∧
    h.recordingDuration = (fromBytesUnsigned (pySlice bs 32 36) : ℚ) *
      (fromBytesUnsigned (pySlice bs 40 42) : ℚ) / 1000 := by
  unfold readT3wHeader at hok
  split at hok
  case isTrue hcond =>
    refine ⟨hcond, ?_⟩
    rw [Except.ok.injEq] at hok
    rw [← hok]
  case isFalse hcond => simp at hok

/-- The last length check of t3wHeaderOk forces at least 830 header bytes. -/
theorem t3wHeaderOk_length (bs : Bytes) (hok : t3wHeaderOk bs = true) :
    830 ≤ bs.length := by
  rw [t3wHeaderOk] at hok
  simp only [Bool.and_eq_true, decide_eq_true_eq] at hok
  have hlen : (pySlice bs 829 830).length = 1 := hok.1.2
  rw [pySlice, List.length_take, List.length_drop] at hlen
  omega

/-- Claim C8 amended: recording_duration is the header field
    sampling_num_per_channel (bytes 32..36) times sampling_time_interval
    (bytes 40..42) divided by 1000 - a function of the 1024-byte fixed header
    only; replacing the entire framed payload with anything else that still
    decodes leaves it unchanged, so no frame's declared count enters it. -/
theorem t3w_c8_amended (input : Bytes) (h : T3wHeader) (d : DecResult)
    (hok : readT3wFile input = .ok (h, d)) :
    h.recordingDuration = (fromBytesUnsigned (pySlice input 32 36) : ℚ) *
      (fromBytesUnsigned (pySlice input 40 42) : ℚ) / 1000 ∧
    ∀ (p2 : Bytes) (h2 : T3wHeader) (d2 : DecResult),
      readT3wFile (input.take 1024 ++ p2) = .ok (h2, d2) →
      h2.recordingDuration = h.recordingDuration := by
  have hhdr : ∀ (hx : T3wHeader) (dx : DecResult) (bsx : Bytes),
      readT3wFile bsx = .ok (hx, dx) →
      readT3wHeader (bsx.take 1024) = .ok hx := by
    intro hx dx bsx hokx
    unfold readT3wFile at hokx
    split at hokx
    · simp at hokx
    case h_2 hh heq =>
      split at hokx
      · simp at hokx
      · rw [Except.ok.injEq, Prod.mk.injEq] at hokx
        rw [hokx.1] at heq
        exact heq
  have h1 := readT3wHeader_duration _ _ (hhdr h d input hok)
  have hlen : 830 ≤ (input.take 1024).length := t3wHeaderOk_length _ h1.1
  have hfull : (input.take 1024).length ≤ 1024 := by
    rw [List.length_take]; omega
  constructor
  · rw [h1.2, pySlice_take input 1024 32 36 (by omega),
      pySlice_take input 1024 40 42 (by omega)]
  · intro p2 h2 d2 hok2
    have h2d := readT3wHeader_duration _ _ (hhdr h2 d2 (input.take 1024 ++ p2) hok2)
    rw [h2d.2, h1.2]
    have htt : (input.take 1024 ++ p2).take 1024 = input.take 1024 ++ p2.take (1024 - (input.take 1024).length) := by
      rw [List.take_append_eq_append_take]
      congr 1
      rw [List.take_of_length_le hfull]
    rw [htt, pySlice_append _ _ 32 36 (by omega), pySlice_append _ _ 40 42 (by omega),
      pySlice_take input 1024 32 36 (by omega), pySlice_take input 1024 40 42 (by omega)]

set_option maxRecDepth 100000
set_option maxHeartbeats 2000000

/-- The 1024-byte t3w fixed header of the C8 input: sampling_num_per_channel
    100 (bytes 32..36) and sampling_time_interval 10 ms (bytes 40..42),
    all other bytes zero. -/
def c8Hdr : Bytes :=
  List.replicate 32 0 ++ [0, 0, 0, 100] ++ List.replicate 4 0 ++ [0, 10] ++
  List.replicate 982 0

/-- The framed payload of the C8 input: one frame whose three channel blocks
    each declare sample count 1 - different from the header's 100. -/
def c8Payload : Bytes :=
  [0, 0, 0, 0] ++ [32, 36, 1, 2, 3, 4, 5, 6] ++ [0, 0, 3, 232] ++ [0, 0, 0, 30] ++
  [0, 0, 0, 0, 16, 1, 0, 0, 0, 5] ++ [0, 0, 0, 0, 16, 1, 0, 0, 0, 5] ++
  [0, 0, 0, 0, 16, 1, 0, 0, 0, 5]

/-- The whole C8 t3w file. -/
def c8Input : Bytes := c8Hdr ++ c8Payload

/-- The header readT3wFile produces for c8Input. -/
def c8HdrVal : T3wHeader :=
  { deviceNumber := 0, numChannel := 0, samplingNumPerChannel := 100,
    samplingTimeInterval := 10, delayTime := 0, sequenceNumber := 0,
    latitude := 0, longitude := 0, recordingDuration := 1 }

/-- The payload decode readT3wFile produces for c8Input. -/
def c8DecVal : DecResult :=
  { magic := [0, 0, 0, 0]
    headerStart := 2024010203040506
    headerEnd := 2024010203040506
    traces := [⟨[5], 2024010203040506⟩, ⟨[5], 2024010203040506⟩,
               ⟨[5], 2024010203040506⟩] }

/-- Full evaluation of the decoder on the C8 input. -/
theorem c8_decode_eval : readT3wFile c8Input = .ok (c8HdrVal, c8DecVal) := by
  have hl : c8Hdr.length = 1024 := by decide
  have htake : c8Input.take 1024 = c8Hdr := by
    rw [c8Input, ← hl, List.take_left]
  have hdrop : c8Input.drop 1024 = c8Payload := by
    rw [c8Input, ← hl, List.drop_left]
  have hok : t3wHeaderOk c8Hdr = true := by decide
  have hbin : readBinData 3 c8Payload = .ok c8DecVal := by decide
  have f1 : fromBytesUnsigned (pySlice c8Hdr 24 26) = 0 := by decide
  have f2 : fromBytesUnsigned (pySlice c8Hdr 30 32) = 0 := by decide
  have f3 : fromBytesUnsigned (pySlice c8Hdr 32 36) = 100 := by decide
  have f4 : fromBytesUnsigned (pySlice c8Hdr 40 42) = 10 := by decide
  have f5 : fromBytesUnsigned (pySlice c8Hdr 42 44) = 0 := by decide
  have f6 : fromBytesUnsigned (pySlice c8Hdr 50 52) = 0 := by decide
  have f7 : fromBytesUnsigned (pySlice c8Hdr 808 812) = 0 := by decide
  have f8 : fromBytesUnsigned (pySlice c8Hdr 812 816) = 0 := by decide
  have f9 : fromBytesUnsigned (pySlice c8Hdr 816 820) = 0 := by decide
  have f10 : fromBytesUnsigned (pySlice c8Hdr 820 824) = 0 := by decide
  have f11 : (pySlice c8Hdr 828 829).headD 0 = 0 := by decide
  have f12 : (pySlice c8Hdr 829 830).headD 0 = 0 := by decide
  unfold readT3wFile
  rw [htake, hdrop]
  unfold readT3wHeader
  rw [hok]
  simp only [if_true, f1, f2, f3, f4, f5, f6, f7, f8, f9, f10, f11, f12]
  rw [hbin]
  norm_num [c8HdrVal]

/-- Claim C8 counterexample: c8Input decodes successfully; its
    recording_duration is 1 s (header count 100 x interval 10 ms), while the
    first frame declares per-channel count 1, whose claimed product would be
    1 x 10 / 1000 = 0.01 s. -/
theorem t3w_c8_counterexample :
    t3wDurationOf c8Input = some 1 ∧
    firstFrameFirstCount (c8Input.drop 1024) = some 1 ∧
    (1 : ℚ) ≠ (1 : ℚ) * 10 / 1000 := by
  refine ⟨?_, ?_, by norm_num⟩
  · unfold t3wDurationOf
    rw [c8_decode_eval]
    rfl
  · have hl : c8Hdr.length = 1024 := by decide
    rw [c8Input, ← hl, List.drop_left]
    decide

/-- Witness for C8 amended at the concrete input. -/
theorem t3w_c8_witness :
    c8HdrVal.recordingDuration =
      (fromBytesUnsigned (pySlice c8Input 32 36) : ℚ) *
      (fromBytesUnsigned (pySlice c8Input 40 42) : ℚ) / 1000 :=
  (t3w_c8_amended c8Input c8HdrVal c8DecVal c8_decode_eval).1
